import Mathlib

/-!
Shallow embedding of the boids simulation core from `src/boids.rs`
(mattzque/bevy-boids-experiment).

The source works with `glam::Vec2` over `f32`; the embedding idealises the
arithmetic as exact real arithmetic, with `Vec2` a pair of reals.  Division
by zero in the model yields `0` (Lean's convention) where the source would
produce NaN; every theorem that touches such a path notes this.
-/

noncomputable section

/-- 2D vector, mirroring `glam::Vec2` as used by the source. -/
abbrev Vec2 : Type := ℝ × ℝ

/-- `Vec2::length`: Euclidean length. -/
def vlen (v : Vec2) : ℝ := Real.sqrt (v.1 ^ 2 + v.2 ^ 2)

/-- `Vec2::distance`. -/
def vdist (a b : Vec2) : ℝ := vlen (a - b)

/-- `Vec2::normalize`: `v / |v|` (for `v = 0` the source yields NaN, the
model yields `0` through division by zero). -/
def vnormalize (v : Vec2) : Vec2 := (1 / vlen v) • v

/-- `limit_vec2` (boids.rs lines 202-208). -/
def limit_vec2 (vector : Vec2) (maxLength : ℝ) : Vec2 :=
  if vlen vector > maxLength then maxLength • vnormalize vector else vector

/-- The accumulation loop shared by the force functions (boids.rs lines
229-240, 272-280, 330-338): fold over the population, adding `f q` and
incrementing the count whenever the guard holds. -/
def accumIf {α : Type*} (p : α → Prop) [DecidablePred p] (f : α → Vec2)
    (l : List α) : Vec2 × ℕ :=
  l.foldl (fun acc q => if p q then (acc.1 + f q, acc.2 + 1) else acc) (0, 0)

/-- `get_separation_force` (boids.rs lines 221-251).  Note the source has the
`normalize`/`max_speed` scaling and the `limit_vec2` clamp commented out; only
`force -= velocity` survives behind the nonzero-length guard. -/
def get_separation_force (position velocity : Vec2) (boids : List Vec2)
    (separation_distance max_speed max_force : ℝ) : Vec2 :=
  let fc := accumIf
    (fun q => 0 < vdist position q ∧ vdist position q < separation_distance)
    (fun q => (1 / vdist position q) • vnormalize (position - q)) boids
  let force := if 0 < fc.2 then ((1 : ℝ) / (fc.2 : ℝ)) • fc.1 else fc.1
  if 0 < vlen force then force - velocity else force

/-- `get_alignment_force` (boids.rs lines 264-287). -/
def get_alignment_force (position velocity : Vec2) (boids : List (Vec2 × Vec2))
    (alignment_distance max_speed max_force : ℝ) : Vec2 :=
  let ac := accumIf
    (fun q => 0 < vdist position q.1 ∧ vdist position q.1 < alignment_distance)
    (fun q => q.2) boids
  if 0 < ac.2 then ((1 : ℝ) / (ac.2 : ℝ)) • ac.1 - velocity else 0

/-- `get_seek_force` (boids.rs lines 289-309).  The `normalize`/`max_speed`
and `limit_vec2` steps are commented out in the source, and the computed
`distance` local is unused. -/
def get_seek_force (position velocity target : Vec2) : Vec2 :=
  let desired := target - position
  if desired = 0 then 0 else desired - velocity

/-- `get_cohesion_force` (boids.rs lines 322-349). -/
def get_cohesion_force (position velocity : Vec2) (boids : List Vec2)
    (cohesion_distance max_speed max_force : ℝ) : Vec2 :=
  let ac := accumIf
    (fun q => 0 < vdist position q ∧ vdist position q < cohesion_distance)
    (fun q => q) boids
  if 0 < ac.2 then
    let average_position := ((1 : ℝ) / (ac.2 : ℝ)) • ac.1
    if 0 < vlen average_position then
      get_seek_force position velocity average_position
    else 0
  else 0

/-- `find_neighbors` (boids.rs lines 184-200), entities as natural-number
ids.  The source only filters out the queried entity itself and anything at
distance `≥ radius`; there is no strict-positivity check on the distance. -/
def find_neighbors (boid : ℕ × Vec2) (boids : List (ℕ × Vec2)) (radius : ℝ) :
    List (ℕ × Vec2 × ℝ) :=
  boids.filterMap fun other =>
    if boid.1 ≠ other.1 ∧ vdist boid.2 other.2 < radius then
      some (other.1, other.2, vdist boid.2 other.2)
    else none

/-- `BoidSettings` (boids.rs lines 19-41), restricted to the fields the
simulation core reads. -/
structure BoidSettings where
  boid_radius : ℝ
  spawn_count : ℕ
  spawn_min_position : ℝ
  spawn_max_position : ℝ
  max_speed : ℝ
  max_force : ℝ
  velocity_time_scale : ℝ
  cohesion_radius : ℝ
  alignment_radius : ℝ
  separation_radius : ℝ
  separation_weight : ℝ
  collision_weight : ℝ
  alignment_weight : ℝ
  cohesion_weight : ℝ
  seek_weight : ℝ
  boundary_min_x : ℝ
  boundary_max_x : ℝ
  boundary_min_y : ℝ
  boundary_max_y : ℝ

/-- The `Default` impl for `BoidSettings` (boids.rs lines 43-76). -/
def defaultSettings : BoidSettings where
  boid_radius := 9
  spawn_count := 200
  spawn_min_position := -500
  spawn_max_position := 500
  max_speed := 0.2
  max_force := 0.05
  velocity_time_scale := 0.01
  cohesion_radius := 25
  alignment_radius := 30
  separation_radius := 17.6
  separation_weight := 1
  collision_weight := 0
  alignment_weight := 0.8
  cohesion_weight := 0.0002
  seek_weight := 0.0003
  boundary_min_x := -600
  boundary_max_x := 600
  boundary_min_y := -600
  boundary_max_y := 600

/-- The collision force exactly as `update` computes it (boids.rs lines
374-381): `get_separation_force` evaluated at radius `boid_radius`. -/
def collision_force_of (s : BoidSettings) (boids : List Vec2)
    (position velocity : Vec2) : Vec2 :=
  get_separation_force position velocity boids s.boid_radius s.max_speed s.max_force

/-- The acceleration of one agent before the final `limit_vec2` clamp
(boids.rs lines 374-441): the weighted force sum, the optional seek term,
then the four per-axis boundary overrides in source order. -/
def pre_clamp_acceleration (s : BoidSettings) (target : Option Vec2)
    (boids : List Vec2) (boids2 : List (Vec2 × Vec2))
    (position velocity : Vec2) : Vec2 :=
  let separation_force :=
    get_separation_force position velocity boids s.separation_radius s.max_speed s.max_force
  let alignment_force :=
    get_alignment_force position velocity boids2 s.alignment_radius s.max_speed s.max_force
  let cohesion_force :=
    get_cohesion_force position velocity boids s.cohesion_radius s.max_speed s.max_force
  let a0 := s.separation_weight • separation_force
    + s.alignment_weight • alignment_force
    + s.cohesion_weight • cohesion_force
    + s.collision_weight • collision_force_of s boids position velocity
  let a1 := match target with
    | some t => a0 + s.seek_weight • get_seek_force position velocity t
    | none => a0
  let a2 := if position.1 < s.boundary_min_x then (s.max_force, a1.2) else a1
  let a3 := if position.1 > s.boundary_max_x then (-s.max_force, a2.2) else a2
  let a4 := if position.2 < s.boundary_min_y then (a3.1, s.max_force) else a3
  if position.2 > s.boundary_max_y then (a4.1, -s.max_force) else a4

/-- The acceleration actually applied to the agent's velocity: the weighted
sum with overrides, clamped to `max_force` (boids.rs line 443). -/
def applied_acceleration (s : BoidSettings) (target : Option Vec2)
    (boids : List Vec2) (boids2 : List (Vec2 × Vec2))
    (position velocity : Vec2) : Vec2 :=
  limit_vec2 (pre_clamp_acceleration s target boids boids2 position velocity) s.max_force

/-- The new velocity of one agent on a tick fire (boids.rs lines 446-447):
add the applied acceleration, then clamp to `max_speed`. -/
def new_velocity (s : BoidSettings) (target : Option Vec2)
    (boids : List Vec2) (boids2 : List (Vec2 × Vec2))
    (position velocity : Vec2) : Vec2 :=
  limit_vec2 (velocity + applied_acceleration s target boids boids2 position velocity) s.max_speed

/-- One agent's tick against the fire-time snapshot; `update` builds the
position list `boids` and the position/velocity list `boids2` from the same
state before the loop (boids.rs lines 363-371). -/
def tick_agent (s : BoidSettings) (target : Option Vec2)
    (snapshot : List (Vec2 × Vec2)) (position velocity : Vec2) : Vec2 :=
  new_velocity s target (snapshot.map Prod.fst) snapshot position velocity

/-- One step of the fire loop: read agent `i`'s live position/velocity, write
its new velocity back; force inputs come from the fire-time snapshot. -/
def tick_step (s : BoidSettings) (target : Option Vec2)
    (snapshot : List (Vec2 × Vec2)) (st : List (Vec2 × Vec2)) (i : ℕ) :
    List (Vec2 × Vec2) :=
  match st[i]? with
  | some pv => st.set i (pv.1, tick_agent s target snapshot pv.1 pv.2)
  | none => st

/-- The fire loop of `update` (boids.rs lines 373-450) processed in an
explicit iteration order over agent indices; the snapshot passed to the force
computations is the state at fire time. -/
def update_fire (s : BoidSettings) (target : Option Vec2)
    (state : List (Vec2 × Vec2)) (order : List ℕ) : List (Vec2 × Vec2) :=
  order.foldl (tick_step s target state) state

/-- The fire expressed as a simultaneous map over the fire-time snapshot. -/
def update_fire_map (s : BoidSettings) (target : Option Vec2)
    (state : List (Vec2 × Vec2)) : List (Vec2 × Vec2) :=
  state.map fun pv => (pv.1, tick_agent s target state pv.1 pv.2)

/-- `apply_boid_velocity` (boids.rs lines 454-465).  `elapsed_seconds` stands
for Bevy's `Time::elapsed_seconds()`: the TOTAL time since startup, not the
per-frame delta. -/
def apply_boid_velocity (s : BoidSettings) (elapsed_seconds : ℝ)
    (state : List (Vec2 × Vec2)) : List (Vec2 × Vec2) :=
  state.map fun pv => (pv.1 + (elapsed_seconds * s.velocity_time_scale) • pv.2, pv.2)

/-- The acceptance test of `setup_boids` (boids.rs lines 126-129): a
candidate is accepted when no already-placed position is strictly closer than
`boid_radius * 2`. -/
def candidate_ok (boid_radius : ℝ) (placed : List Vec2) (c : Vec2) : Bool :=
  decide (∀ pos ∈ placed, ¬ vdist pos c < boid_radius * 2)

/-- The inner attempt loop of `setup_boids` (boids.rs lines 119-142): the
first accepted candidate of the (ten-element) candidate list, if any. -/
def try_place (boid_radius : ℝ) (placed : List Vec2) (cands : List Vec2) :
    Option Vec2 :=
  cands.find? (candidate_ok boid_radius placed)

/-- The placement loop of `setup_boids` (boids.rs lines 114-144), with the
thread rng abstracted as a function from (slot, attempt) to the sampled
candidate position. -/
def setup_positions (candidates : ℕ → ℕ → Vec2) (spawn_count : ℕ)
    (boid_radius : ℝ) : List Vec2 :=
  (List.range spawn_count).foldl
    (fun placed slot =>
      match try_place boid_radius placed ((List.range 10).map (candidates slot)) with
      | some c => placed ++ [c]
      | none => placed)
    []

/-! ### Basic vector lemmas -/

lemma vlen_nonneg (v : Vec2) : 0 ≤ vlen v := Real.sqrt_nonneg _

lemma vlen_zero : vlen (0 : Vec2) = 0 := by
  simp [vlen]

lemma vlen_eq_zero_iff (v : Vec2) : vlen v = 0 ↔ v = 0 := by
  unfold vlen
  rw [Real.sqrt_eq_zero (by positivity), Prod.ext_iff, Prod.fst_zero, Prod.snd_zero]
  constructor
  · intro h
    constructor
    · nlinarith [sq_nonneg v.1, sq_nonneg v.2]
    · nlinarith [sq_nonneg v.1, sq_nonneg v.2]
  · intro h
    rw [h.1, h.2]
    ring

lemma vlen_pos_iff (v : Vec2) : 0 < vlen v ↔ v ≠ 0 := by
  constructor
  · intro h hv
    rw [hv, vlen_zero] at h
    exact lt_irrefl 0 h
  · intro h
    rcases lt_or_eq_of_le (vlen_nonneg v) with h1 | h1
    · exact h1
    · exact absurd ((vlen_eq_zero_iff v).1 h1.symm) h

lemma vlen_smul (r : ℝ) (v : Vec2) : vlen (r • v) = |r| * vlen v := by
  obtain ⟨x, y⟩ := v
  simp only [vlen, Prod.smul_mk, smul_eq_mul]
  rw [mul_pow, mul_pow, ← mul_add, Real.sqrt_mul (sq_nonneg r), Real.sqrt_sq_eq_abs]

lemma vlen_mk_axis (a : ℝ) : vlen (a, (0 : ℝ)) = |a| := by
  simp [vlen, Real.sqrt_sq_eq_abs]

lemma vdist_self (p : Vec2) : vdist p p = 0 := by
  simp [vdist, vlen_zero]

lemma vnormalize_zero : vnormalize (0 : Vec2) = 0 := by
  simp [vnormalize]

lemma vlen_vnormalize (v : Vec2) (h : v ≠ 0) : vlen (vnormalize v) = 1 := by
  have hv : 0 < vlen v := (vlen_pos_iff v).2 h
  rw [vnormalize, vlen_smul, abs_of_pos (by positivity)]
  field_simp

lemma limit_vec2_le (v : Vec2) (m : ℝ) (hm : 0 ≤ m) : vlen (limit_vec2 v m) ≤ m := by
  by_cases hc : vlen v > m
  · have hv : v ≠ 0 := by
      intro h0
      rw [h0, vlen_zero] at hc
      exact absurd hc (not_lt.2 hm)
    rw [limit_vec2, if_pos hc, vlen_smul, vlen_vnormalize v hv, mul_one, abs_of_nonneg hm]
  · rw [limit_vec2, if_neg hc]
    exact not_lt.1 hc

lemma limit_vec2_zero (m : ℝ) : limit_vec2 (0 : Vec2) m = 0 := by
  unfold limit_vec2
  split
  · rw [vnormalize_zero, smul_zero]
  · rfl

/-! ### Characterization of the accumulation loops -/

lemma accumIf_go {α : Type*} (p : α → Prop) [DecidablePred p] (f : α → Vec2)
    (l : List α) :
    ∀ (F : Vec2) (C : ℕ),
      l.foldl (fun acc q => if p q then (acc.1 + f q, acc.2 + 1) else acc) (F, C)
        = (F + ((l.filter fun q => decide (p q)).map f).sum,
           C + (l.filter fun q => decide (p q)).length) := by
  induction l with
  | nil => intro F C; simp
  | cons a t ih =>
    intro F C
    by_cases hp : p a
    · rw [List.foldl_cons, if_pos hp, ih, List.filter_cons_of_pos (by simpa using hp)]
      simp only [List.map_cons, List.sum_cons, List.length_cons, Prod.mk.injEq]
      constructor
      · abel
      · omega
    · rw [List.foldl_cons, if_neg hp, ih, List.filter_cons_of_neg (by simpa using hp)]

lemma accumIf_eq {α : Type*} (p : α → Prop) [DecidablePred p] (f : α → Vec2)
    (l : List α) :
    accumIf p f l = (((l.filter fun q => decide (p q)).map f).sum,
      (l.filter fun q => decide (p q)).length) := by
  unfold accumIf
  rw [accumIf_go]
  simp

/-! ### Closed forms for the force loops -/

/-- The population members the separation loop actually considers. -/
def sep_neighbors (position : Vec2) (separation_distance : ℝ)
    (boids : List Vec2) : List Vec2 :=
  boids.filter fun q =>
    decide (0 < vdist position q ∧ vdist position q < separation_distance)

/-- The averaged inverse-distance-weighted repulsion of the separation loop. -/
def sep_avg (position : Vec2) (separation_distance : ℝ)
    (boids : List Vec2) : Vec2 :=
  ((1 : ℝ) / ((sep_neighbors position separation_distance boids).length : ℝ)) •
    ((sep_neighbors position separation_distance boids).map fun q =>
      (1 / vdist position q) • vnormalize (position - q)).sum

/-- The separation rule as the spec words it (spec.md section 4.3): average
the inverse-distance-weighted repulsion over the neighbors strictly within
the radius, then steer by `normalize(avg) * max_speed - velocity` clamped to
`max_force`; the zero vector when no neighbor is in range. -/
def spec_separation_force (position velocity : Vec2) (boids : List Vec2)
    (separation_distance max_speed max_force : ℝ) : Vec2 :=
  if (sep_neighbors position separation_distance boids).length = 0 then 0
  else limit_vec2
    (max_speed • vnormalize (sep_avg position separation_distance boids) - velocity)
    max_force

/-- The seek rule as the spec words it (spec.md section 4.3):
`normalize(target - position) * max_speed - velocity` clamped to `max_force`,
zero when the target coincides with the position. -/
def spec_seek_force (position velocity target : Vec2)
    (max_speed max_force : ℝ) : Vec2 :=
  if target = position then 0
  else limit_vec2 (max_speed • vnormalize (target - position) - velocity) max_force

lemma get_separation_force_eq (position velocity : Vec2) (boids : List Vec2)
    (sd ms mf : ℝ) :
    get_separation_force position velocity boids sd ms mf =
      if sep_neighbors position sd boids = [] then 0
      else if sep_avg position sd boids = 0 then 0
      else sep_avg position sd boids - velocity := by
  unfold get_separation_force sep_avg sep_neighbors
  rw [accumIf_eq]
  set S := boids.filter fun q => decide (0 < vdist position q ∧ vdist position q < sd) with hS
  by_cases hSnil : S = []
  · rw [if_pos hSnil, hSnil]
    simp [vlen_zero]
  · have hlen : 0 < S.length := List.length_pos.2 hSnil
    rw [if_neg hSnil]
    set avg := ((1 : ℝ) / (S.length : ℝ)) •
      (S.map fun q => (1 / vdist position q) • vnormalize (position - q)).sum with havg
    by_cases ha : avg = 0
    · rw [if_pos ha]
      simp only [hlen, if_true, ← havg, ha, vlen_zero, lt_irrefl, if_false]
    · rw [if_neg ha]
      have : 0 < vlen avg := (vlen_pos_iff avg).2 ha
      simp only [hlen, if_true, ← havg, this, if_true]

/-- The population members the cohesion loop actually considers. -/
def coh_neighbors (position : Vec2) (cohesion_distance : ℝ)
    (boids : List Vec2) : List Vec2 :=
  boids.filter fun q =>
    decide (0 < vdist position q ∧ vdist position q < cohesion_distance)

/-- The averaged neighbor position of the cohesion loop. -/
def coh_avg (position : Vec2) (cohesion_distance : ℝ)
    (boids : List Vec2) : Vec2 :=
  ((1 : ℝ) / ((coh_neighbors position cohesion_distance boids).length : ℝ)) •
    (coh_neighbors position cohesion_distance boids).sum

lemma get_cohesion_force_eq (position velocity : Vec2) (boids : List Vec2)
    (cd ms mf : ℝ) :
    get_cohesion_force position velocity boids cd ms mf =
      if coh_neighbors position cd boids = [] then 0
      else if coh_avg position cd boids = 0 then 0
      else get_seek_force position velocity (coh_avg position cd boids) := by
  unfold get_cohesion_force coh_avg coh_neighbors
  rw [accumIf_eq]
  set S := boids.filter fun q => decide (0 < vdist position q ∧ vdist position q < cd) with hS
  by_cases hSnil : S = []
  · rw [if_pos hSnil, hSnil]
    simp [vlen_zero]
  · have hlen : 0 < S.length := List.length_pos.2 hSnil
    rw [if_neg hSnil]
    set avg := ((1 : ℝ) / (S.length : ℝ)) • S.sum with havg
    by_cases ha : avg = 0
    · rw [if_pos ha]
      simp only [hlen, if_true, List.map_id', ← havg, ha, vlen_zero, lt_irrefl, if_false]
    · rw [if_neg ha]
      have : 0 < vlen avg := (vlen_pos_iff avg).2 ha
      simp only [hlen, if_true, List.map_id', ← havg, this, if_true]

/-! ### Forces vanish when nothing passes the guard -/

lemma sep_neighbors_eq_nil (position : Vec2) (sd : ℝ) (boids : List Vec2)
    (h : ∀ q ∈ boids, vdist position q = 0 ∨ sd ≤ vdist position q) :
    sep_neighbors position sd boids = [] := by
  unfold sep_neighbors
  rw [List.filter_eq_nil_iff]
  intro q hq
  simp only [decide_eq_true_eq, not_and, not_lt]
  intro hpos
  rcases h q hq with h0 | h0
  · exact absurd h0 (ne_of_gt hpos)
  · exact h0

lemma get_separation_force_of_far (position velocity : Vec2) (boids : List Vec2)
    (sd ms mf : ℝ)
    (h : ∀ q ∈ boids, vdist position q = 0 ∨ sd ≤ vdist position q) :
    get_separation_force position velocity boids sd ms mf = 0 := by
  rw [get_separation_force_eq, if_pos (sep_neighbors_eq_nil position sd boids h)]

lemma get_cohesion_force_of_far (position velocity : Vec2) (boids : List Vec2)
    (cd ms mf : ℝ)
    (h : ∀ q ∈ boids, vdist position q = 0 ∨ cd ≤ vdist position q) :
    get_cohesion_force position velocity boids cd ms mf = 0 := by
  rw [get_cohesion_force_eq, if_pos]
  unfold coh_neighbors
  rw [List.filter_eq_nil_iff]
  intro q hq
  simp only [decide_eq_true_eq, not_and, not_lt]
  intro hpos
  rcases h q hq with h0 | h0
  · exact absurd h0 (ne_of_gt hpos)
  · exact h0

lemma get_alignment_force_of_far (position velocity : Vec2)
    (boids : List (Vec2 × Vec2)) (ad ms mf : ℝ)
    (h : ∀ q ∈ boids, vdist position q.1 = 0 ∨ ad ≤ vdist position q.1) :
    get_alignment_force position velocity boids ad ms mf = 0 := by
  unfold get_alignment_force
  rw [accumIf_eq]
  have hnil : (boids.filter fun q =>
      decide (0 < vdist position q.1 ∧ vdist position q.1 < ad)) = [] := by
    rw [List.filter_eq_nil_iff]
    intro q hq
    simp only [decide_eq_true_eq, not_and, not_lt]
    intro hpos
    rcases h q hq with h0 | h0
    · exact absurd h0 (ne_of_gt hpos)
    · exact h0
  rw [hnil]
  simp

lemma self_only_far (p : Vec2) (r : ℝ) :
    ∀ q ∈ [p], vdist p q = 0 ∨ r ≤ vdist p q := by
  intro q hq
  rw [List.mem_singleton] at hq
  rw [hq]
  exact Or.inl (vdist_self p)

lemma self_only_far2 (p v : Vec2) (r : ℝ) :
    ∀ q ∈ [(p, v)], vdist p q.1 = 0 ∨ r ≤ vdist p q.1 := by
  intro q hq
  rw [List.mem_singleton] at hq
  subst hq
  exact Or.inl (vdist_self p)

/-! ### The pre-clamp acceleration: boundary overrides and the lone agent -/

lemma pre_clamp_fst_of_high (s : BoidSettings) (target : Option Vec2)
    (boids : List Vec2) (boids2 : List (Vec2 × Vec2)) (position velocity : Vec2)
    (h : position.1 > s.boundary_max_x) :
    (pre_clamp_acceleration s target boids boids2 position velocity).1 = -s.max_force := by
  unfold pre_clamp_acceleration
  by_cases h1 : position.1 < s.boundary_min_x <;>
    by_cases h3 : position.2 < s.boundary_min_y <;>
    by_cases h4 : position.2 > s.boundary_max_y <;>
    simp [h, h1, h3, h4]

lemma pre_clamp_fst_of_low (s : BoidSettings) (target : Option Vec2)
    (boids : List Vec2) (boids2 : List (Vec2 × Vec2)) (position velocity : Vec2)
    (h1 : position.1 < s.boundary_min_x) (h2 : ¬ position.1 > s.boundary_max_x) :
    (pre_clamp_acceleration s target boids boids2 position velocity).1 = s.max_force := by
  unfold pre_clamp_acceleration
  by_cases h3 : position.2 < s.boundary_min_y <;>
    by_cases h4 : position.2 > s.boundary_max_y <;>
    simp [h1, h2, h3, h4]

lemma pre_clamp_snd_of_high (s : BoidSettings) (target : Option Vec2)
    (boids : List Vec2) (boids2 : List (Vec2 × Vec2)) (position velocity : Vec2)
    (h : position.2 > s.boundary_max_y) :
    (pre_clamp_acceleration s target boids boids2 position velocity).2 = -s.max_force := by
  unfold pre_clamp_acceleration
  by_cases h1 : position.1 < s.boundary_min_x <;>
    by_cases h2 : position.1 > s.boundary_max_x <;>
    by_cases h3 : position.2 < s.boundary_min_y <;>
    simp [h, h1, h2, h3]

lemma pre_clamp_snd_of_low (s : BoidSettings) (target : Option Vec2)
    (boids : List Vec2) (boids2 : List (Vec2 × Vec2)) (position velocity : Vec2)
    (h3 : position.2 < s.boundary_min_y) (h4 : ¬ position.2 > s.boundary_max_y) :
    (pre_clamp_acceleration s target boids boids2 position velocity).2 = s.max_force := by
  unfold pre_clamp_acceleration
  by_cases h1 : position.1 < s.boundary_min_x <;>
    by_cases h2 : position.1 > s.boundary_max_x <;>
    simp [h1, h2, h3, h4]

lemma pre_clamp_single_agent_zero (s : BoidSettings) (p v : Vec2)
    (h1 : ¬ p.1 < s.boundary_min_x) (h2 : ¬ p.1 > s.boundary_max_x)
    (h3 : ¬ p.2 < s.boundary_min_y) (h4 : ¬ p.2 > s.boundary_max_y) :
    pre_clamp_acceleration s none [p] [(p, v)] p v = 0 := by
  unfold pre_clamp_acceleration collision_force_of
  rw [get_separation_force_of_far p v [p] s.separation_radius s.max_speed s.max_force
        (self_only_far p s.separation_radius),
      get_separation_force_of_far p v [p] s.boid_radius s.max_speed s.max_force
        (self_only_far p s.boid_radius),
      get_alignment_force_of_far p v [(p, v)] s.alignment_radius s.max_speed s.max_force
        (self_only_far2 p v s.alignment_radius),
      get_cohesion_force_of_far p v [p] s.cohesion_radius s.max_speed s.max_force
        (self_only_far p s.cohesion_radius)]
  simp [h1, h2, h3, h4]

lemma pre_clamp_single_agent_low_x (s : BoidSettings) (p v : Vec2)
    (h1 : p.1 < s.boundary_min_x) (h2 : ¬ p.1 > s.boundary_max_x)
    (h3 : ¬ p.2 < s.boundary_min_y) (h4 : ¬ p.2 > s.boundary_max_y) :
    pre_clamp_acceleration s none [p] [(p, v)] p v = (s.max_force, 0) := by
  unfold pre_clamp_acceleration collision_force_of
  rw [get_separation_force_of_far p v [p] s.separation_radius s.max_speed s.max_force
        (self_only_far p s.separation_radius),
      get_separation_force_of_far p v [p] s.boid_radius s.max_speed s.max_force
        (self_only_far p s.boid_radius),
      get_alignment_force_of_far p v [(p, v)] s.alignment_radius s.max_speed s.max_force
        (self_only_far2 p v s.alignment_radius),
      get_cohesion_force_of_far p v [p] s.cohesion_radius s.max_speed s.max_force
        (self_only_far p s.cohesion_radius)]
  simp [h1, h2, h3, h4]

/-! ### The fire loop: pointwise description and order independence -/

lemma tick_step_getElem (s : BoidSettings) (target : Option Vec2)
    (snapshot st : List (Vec2 × Vec2)) (i j : ℕ) :
    (tick_step s target snapshot st i)[j]? =
      if i = j then
        (st[j]?).map fun pv => (pv.1, tick_agent s target snapshot pv.1 pv.2)
      else st[j]? := by
  unfold tick_step
  cases h : st[i]? with
  | none =>
    by_cases hij : i = j
    · subst hij
      rw [if_pos rfl, h]
      rfl
    · rw [if_neg hij]
  | some pv =>
    have hi : i < st.length := by
      rcases List.getElem?_eq_some_iff.1 h with ⟨hlt, _⟩
      exact hlt
    by_cases hij : i = j
    · subst hij
      rw [if_pos rfl, h, List.getElem?_set_self hi]
      rfl
    · rw [if_neg hij, List.getElem?_set_ne hij]

lemma update_fire_go (s : BoidSettings) (target : Option Vec2)
    (state : List (Vec2 × Vec2)) :
    ∀ (ord : List ℕ) (st : List (Vec2 × Vec2)), ord.Nodup →
      (∀ i ∈ ord, st[i]? = state[i]?) →
      ∀ j, (ord.foldl (tick_step s target state) st)[j]? =
        if j ∈ ord then
          (state[j]?).map fun pv => (pv.1, tick_agent s target state pv.1 pv.2)
        else st[j]? := by
  intro ord
  induction ord with
  | nil =>
    intro st _ _ j
    simp
  | cons i rest ih =>
    intro st hnd hagree j
    rw [List.foldl_cons]
    have hnotmem : i ∉ rest := (List.nodup_cons.1 hnd).1
    have hnd1 : rest.Nodup := (List.nodup_cons.1 hnd).2
    have hagree1 : ∀ k ∈ rest, (tick_step s target state st i)[k]? = state[k]? := by
      intro k hk
      rw [tick_step_getElem]
      have hik : i ≠ k := fun he => hnotmem (he ▸ hk)
      rw [if_neg hik]
      exact hagree k (List.mem_cons_of_mem i hk)
    rw [ih (tick_step s target state st i) hnd1 hagree1 j]
    by_cases hjrest : j ∈ rest
    · rw [if_pos hjrest, if_pos (List.mem_cons_of_mem i hjrest)]
    · rw [if_neg hjrest, tick_step_getElem]
      by_cases hij : i = j
      · subst hij
        rw [if_pos rfl, if_pos (List.mem_cons_self i rest),
          hagree i (List.mem_cons_self i rest)]
      · rw [if_neg hij, if_neg]
        intro hmem
        rcases List.mem_cons.1 hmem with hc | hc
        · exact hij hc.symm
        · exact hjrest hc

lemma update_fire_eq_map (s : BoidSettings) (target : Option Vec2)
    (state : List (Vec2 × Vec2)) (ord : List ℕ) (hnd : ord.Nodup)
    (hcover : ∀ i, i ∈ ord ↔ i < state.length) :
    update_fire s target state ord = update_fire_map s target state := by
  apply List.ext_getElem?
  intro j
  unfold update_fire update_fire_map
  rw [update_fire_go s target state ord state hnd (fun i _ => rfl) j,
    List.getElem?_map]
  by_cases hj : j ∈ ord
  · rw [if_pos hj]
  · rw [if_neg hj]
    have hlen : state.length ≤ j := le_of_not_lt fun hlt => hj ((hcover j).2 hlt)
    rw [List.getElem?_eq_none hlen]
    rfl

lemma tick_step_map_fst (s : BoidSettings) (target : Option Vec2)
    (snapshot st : List (Vec2 × Vec2)) (i : ℕ) :
    (tick_step s target snapshot st i).map Prod.fst = st.map Prod.fst := by
  unfold tick_step
  cases h : st[i]? with
  | none => rfl
  | some pv =>
    have hi : i < st.length := by
      rcases List.getElem?_eq_some_iff.1 h with ⟨hlt, _⟩
      exact hlt
    rw [List.map_set]
    apply List.ext_getElem?
    intro j
    by_cases hij : i = j
    · subst hij
      rw [List.getElem?_set_self (by simpa using hi), List.getElem?_map, h]
      rfl
    · rw [List.getElem?_set_ne hij]

lemma update_fire_map_fst (s : BoidSettings) (target : Option Vec2)
    (state : List (Vec2 × Vec2)) (ord : List ℕ) :
    (update_fire s target state ord).map Prod.fst = state.map Prod.fst := by
  unfold update_fire
  suffices h : ∀ (o : List ℕ) (st : List (Vec2 × Vec2)),
      (o.foldl (tick_step s target state) st).map Prod.fst = st.map Prod.fst by
    exact h ord state
  intro o
  induction o with
  | nil => intro st; rfl
  | cons i rest ih =>
    intro st
    rw [List.foldl_cons, ih, tick_step_map_fst]

/-! ### Spawner lemmas -/

lemma try_place_mem (r : ℝ) (placed cands : List Vec2) (c : Vec2)
    (h : try_place r placed cands = some c) : c ∈ cands :=
  List.mem_of_find?_eq_some h

lemma try_place_ok (r : ℝ) (placed cands : List Vec2) (c : Vec2)
    (h : try_place r placed cands = some c) :
    ∀ pos ∈ placed, ¬ vdist pos c < r * 2 := by
  have hfind := List.find?_some h
  unfold candidate_ok at hfind
  exact of_decide_eq_true hfind

lemma setup_positions_go (candidates : ℕ → ℕ → Vec2) (boid_radius : ℝ) :
    ∀ (slots : List ℕ) (placed : List Vec2),
      placed.Pairwise (fun a b => boid_radius * 2 ≤ vdist a b) →
      (slots.foldl
        (fun pl slot =>
          match try_place boid_radius pl ((List.range 10).map (candidates slot)) with
          | some c => pl ++ [c]
          | none => pl) placed).Pairwise (fun a b => boid_radius * 2 ≤ vdist a b) ∧
      (slots.foldl
        (fun pl slot =>
          match try_place boid_radius pl ((List.range 10).map (candidates slot)) with
          | some c => pl ++ [c]
          | none => pl) placed).length ≤ placed.length + slots.length ∧
      ∀ c ∈ (slots.foldl
        (fun pl slot =>
          match try_place boid_radius pl ((List.range 10).map (candidates slot)) with
          | some c => pl ++ [c]
          | none => pl) placed),
        c ∈ placed ∨ ∃ slot ∈ slots, ∃ k < 10, c = candidates slot k := by
  intro slots
  induction slots with
  | nil =>
    intro placed hpw
    refine ⟨hpw, le_refl _, fun c hc => Or.inl hc⟩
  | cons i rest ih =>
    intro placed hpw
    rw [List.foldl_cons]
    cases hplace : try_place boid_radius placed ((List.range 10).map (candidates i)) with
    | none =>
      simp only [hplace]
      rcases ih placed hpw with ⟨hp1, hp2, hp3⟩
      refine ⟨hp1, by simpa using Nat.le_succ_of_le hp2, fun c hc => ?_⟩
      rcases hp3 c hc with hc1 | ⟨slot, hslot, hk⟩
      · exact Or.inl hc1
      · exact Or.inr ⟨slot, List.mem_cons_of_mem i hslot, hk⟩
    | some c =>
      simp only [hplace]
      have hpw1 : (placed ++ [c]).Pairwise (fun a b => boid_radius * 2 ≤ vdist a b) := by
        rw [List.pairwise_append]
        refine ⟨hpw, List.pairwise_singleton _ _, fun a ha b hb => ?_⟩
        rw [List.mem_singleton] at hb
        rw [hb]
        exact not_lt.1 (try_place_ok boid_radius placed _ c hplace a ha)
      rcases ih (placed ++ [c]) hpw1 with ⟨hp1, hp2, hp3⟩
      refine ⟨hp1, ?_, fun d hd => ?_⟩
      · have hlen := hp2
        simp only [List.length_append, List.length_singleton, List.length_cons,
          List.length_nil] at hlen ⊢
        omega
      · rcases hp3 d hd with hd1 | ⟨slot, hslot, hk⟩
        · rcases List.mem_append.1 hd1 with hd2 | hd2
          · exact Or.inl hd2
          · rw [List.mem_singleton] at hd2
            subst hd2
            rcases List.mem_map.1 (try_place_mem boid_radius placed _ d hplace) with
              ⟨k, hk10, hkd⟩
            exact Or.inr ⟨i, List.mem_cons_self i rest, k, List.mem_range.1 hk10, hkd.symm⟩
        · exact Or.inr ⟨slot, List.mem_cons_of_mem i hslot, hk⟩

/-! ### Concrete evaluations on the x-axis (all lengths are exact) -/

lemma sub_axis (a b : ℝ) : ((a, (0 : ℝ)) : Vec2) - (b, 0) = (a - b, 0) := by
  rw [Prod.mk_sub_mk, sub_zero]

lemma smul_axis (r a : ℝ) : r • ((a, (0 : ℝ)) : Vec2) = (r * a, 0) := by
  rw [Prod.smul_mk, smul_eq_mul, smul_eq_mul, mul_zero]

lemma vdist_axis (a b : ℝ) : vdist ((a, (0 : ℝ)) : Vec2) (b, 0) = |a - b| := by
  rw [vdist, sub_axis, vlen_mk_axis]

lemma vnormalize_axis (a : ℝ) :
    vnormalize ((a, (0 : ℝ)) : Vec2) = (a / |a|, 0) := by
  rw [vnormalize, vlen_mk_axis, smul_axis, one_div, inv_mul_eq_div]

lemma sep_neighbors_pair_near (r : ℝ) (h5 : (5 : ℝ) < r) :
    sep_neighbors ((0 : ℝ), (0 : ℝ)) r [((0 : ℝ), (0 : ℝ)), ((5 : ℝ), (0 : ℝ))] =
      [((5 : ℝ), (0 : ℝ))] := by
  have h1 : vdist (0 : Vec2) (0 : Vec2) = 0 := vdist_self _
  have h2 : vdist (0 : Vec2) (((5 : ℝ), (0 : ℝ)) : Vec2) = 5 := by
    rw [show (0 : Vec2) = ((0 : ℝ), (0 : ℝ)) from rfl, vdist_axis]
    norm_num
  unfold sep_neighbors
  rw [List.filter_cons, List.filter_cons, List.filter_nil]
  norm_num [h1, h2, h5]

lemma sep_neighbors_pair_far (r : ℝ) (h5 : r ≤ 5) :
    sep_neighbors ((0 : ℝ), (0 : ℝ)) r [((0 : ℝ), (0 : ℝ)), ((5 : ℝ), (0 : ℝ))] = [] := by
  have h1 : vdist (0 : Vec2) (0 : Vec2) = 0 := vdist_self _
  have h2 : vdist (0 : Vec2) (((5 : ℝ), (0 : ℝ)) : Vec2) = 5 := by
    rw [show (0 : Vec2) = ((0 : ℝ), (0 : ℝ)) from rfl, vdist_axis]
    norm_num
  unfold sep_neighbors
  rw [List.filter_cons, List.filter_cons, List.filter_nil]
  norm_num [h1, h2, not_lt.2 h5]

lemma sep_avg_pair (r : ℝ) (h5 : (5 : ℝ) < r) :
    sep_avg ((0 : ℝ), (0 : ℝ)) r [((0 : ℝ), (0 : ℝ)), ((5 : ℝ), (0 : ℝ))] =
      (-(1 / 5 : ℝ), 0) := by
  unfold sep_avg
  rw [sep_neighbors_pair_near r h5]
  have h2 : vdist ((0 : ℝ), (0 : ℝ)) ((5 : ℝ), (0 : ℝ)) = 5 := by
    rw [vdist_axis]
    norm_num
  have h3 : ((0 : ℝ), (0 : ℝ)) - ((5 : ℝ), (0 : ℝ)) = ((-5 : ℝ), (0 : ℝ)) := by
    rw [Prod.mk_sub_mk, sub_zero, zero_sub]
  rw [List.map_singleton, List.sum_singleton, List.length_singleton, h2, h3,
    vnormalize_axis, smul_axis, smul_axis]
  norm_num

/-! ## Claim theorems -/

/-- Settings with negative speed/force caps: the claimed bounds fail here. -/
def negSettings : BoidSettings :=
  { defaultSettings with max_speed := -1, max_force := -1 }

/-- Settings whose `boid_radius` is 3, so that an agent at distance 5 falls
between `boid_radius` and `2 * boid_radius`. -/
def smallRadiusSettings : BoidSettings :=
  { defaultSettings with boid_radius := 3 }

/-- C1 (amended): for nonnegative `max_speed` and `max_force`, after a tick
fire every agent's velocity satisfies `|velocity| <= max_speed` and the
applied acceleration satisfies `|acceleration| <= max_force`. -/
theorem c1_velocity_acceleration_bounded (s : BoidSettings) (target : Option Vec2)
    (boids : List Vec2) (boids2 : List (Vec2 × Vec2)) (p v : Vec2)
    (hms : 0 ≤ s.max_speed) (hmf : 0 ≤ s.max_force) :
    vlen (new_velocity s target boids boids2 p v) ≤ s.max_speed ∧
      vlen (applied_acceleration s target boids boids2 p v) ≤ s.max_force := by
  constructor
  · unfold new_velocity
    exact limit_vec2_le _ _ hms
  · unfold applied_acceleration
    exact limit_vec2_le _ _ hmf

/-- C1 witness: the bounds at the default settings for a lone agent. -/
theorem c1_velocity_acceleration_bounded_witness :
    ((0 : ℝ) ≤ defaultSettings.max_speed ∧ (0 : ℝ) ≤ defaultSettings.max_force) ∧
      (vlen (new_velocity defaultSettings none [] [] 0 0) ≤ defaultSettings.max_speed ∧
        vlen (applied_acceleration defaultSettings none [] [] 0 0) ≤
          defaultSettings.max_force) :=
  ⟨⟨by norm_num [defaultSettings], by norm_num [defaultSettings]⟩,
    c1_velocity_acceleration_bounded defaultSettings none [] [] 0 0
      (by norm_num [defaultSettings]) (by norm_num [defaultSettings])⟩

/-- C1 counterexample: with `max_speed = max_force = -1` (the claim quantifies
over every configuration) a lone in-bounds agent with velocity `(1, 0)` ends
the fire with `|velocity| = 1 > max_speed` and `|acceleration| = 0 > max_force`. -/
theorem c1_counterexample :
    ¬ (vlen (new_velocity negSettings none [((0 : ℝ), (0 : ℝ))]
          [(((0 : ℝ), (0 : ℝ)), ((1 : ℝ), (0 : ℝ)))]
          ((0 : ℝ), (0 : ℝ)) ((1 : ℝ), (0 : ℝ))) ≤ negSettings.max_speed ∧
        vlen (applied_acceleration negSettings none [((0 : ℝ), (0 : ℝ))]
          [(((0 : ℝ), (0 : ℝ)), ((1 : ℝ), (0 : ℝ)))]
          ((0 : ℝ), (0 : ℝ)) ((1 : ℝ), (0 : ℝ))) ≤ negSettings.max_force) := by
  intro h
  have hb1 : ¬ (((0 : ℝ), (0 : ℝ)) : Vec2).1 < negSettings.boundary_min_x := by
    norm_num [negSettings, defaultSettings]
  have hb2 : ¬ (((0 : ℝ), (0 : ℝ)) : Vec2).1 > negSettings.boundary_max_x := by
    norm_num [negSettings, defaultSettings]
  have hb3 : ¬ (((0 : ℝ), (0 : ℝ)) : Vec2).2 < negSettings.boundary_min_y := by
    norm_num [negSettings, defaultSettings]
  have hb4 : ¬ (((0 : ℝ), (0 : ℝ)) : Vec2).2 > negSettings.boundary_max_y := by
    norm_num [negSettings, defaultSettings]
  have happ : applied_acceleration negSettings none [((0 : ℝ), (0 : ℝ))]
      [(((0 : ℝ), (0 : ℝ)), ((1 : ℝ), (0 : ℝ)))]
      ((0 : ℝ), (0 : ℝ)) ((1 : ℝ), (0 : ℝ)) = 0 := by
    unfold applied_acceleration
    rw [pre_clamp_single_agent_zero negSettings ((0 : ℝ), (0 : ℝ)) ((1 : ℝ), (0 : ℝ))
      hb1 hb2 hb3 hb4, limit_vec2_zero]
  have h2 := h.2
  rw [happ, vlen_zero] at h2
  norm_num [negSettings, defaultSettings] at h2

/-- C2 (amended): the separation force is the inverse-distance-weighted
repulsion averaged over the neighbor count minus the velocity; the source
performs no `normalize * max_speed` rescaling and no `max_force` clamp, and
returns zero when no neighbor is strictly within the radius (or when the
averaged sum is exactly the zero vector). -/
theorem c2_separation_closed_form (position velocity : Vec2) (boids : List Vec2)
    (sd ms mf : ℝ) :
    get_separation_force position velocity boids sd ms mf =
      if sep_neighbors position sd boids = [] then 0
      else if sep_avg position sd boids = 0 then 0
      else sep_avg position sd boids - velocity :=
  get_separation_force_eq position velocity boids sd ms mf

/-- C2 counterexample: for an agent at the origin with one neighbor at
`(5, 0)`, radius 10, `max_speed = 1`, `max_force = 100`, the code returns
`(-1/5, 0)` while the spec formula returns `(-1, 0)`. -/
theorem c2_counterexample :
    get_separation_force ((0 : ℝ), (0 : ℝ)) ((0 : ℝ), (0 : ℝ))
        [((0 : ℝ), (0 : ℝ)), ((5 : ℝ), (0 : ℝ))] 10 1 100 ≠
      spec_separation_force ((0 : ℝ), (0 : ℝ)) ((0 : ℝ), (0 : ℝ))
        [((0 : ℝ), (0 : ℝ)), ((5 : ℝ), (0 : ℝ))] 10 1 100 := by
  have hS := sep_neighbors_pair_near 10 (by norm_num)
  have hA := sep_avg_pair 10 (by norm_num)
  have hcode : get_separation_force ((0 : ℝ), (0 : ℝ)) ((0 : ℝ), (0 : ℝ))
      [((0 : ℝ), (0 : ℝ)), ((5 : ℝ), (0 : ℝ))] 10 1 100 = (-(1 / 5 : ℝ), 0) := by
    rw [get_separation_force_eq, hS, hA]
    norm_num [Prod.ext_iff]
  have hspec : spec_separation_force ((0 : ℝ), (0 : ℝ)) ((0 : ℝ), (0 : ℝ))
      [((0 : ℝ), (0 : ℝ)), ((5 : ℝ), (0 : ℝ))] 10 1 100 = ((-1 : ℝ), 0) := by
    unfold spec_separation_force
    rw [hS, hA, if_neg (by norm_num)]
    have hval : vnormalize ((-(1 / 5 : ℝ)), (0 : ℝ)) = ((-1 : ℝ), (0 : ℝ)) := by
      rw [vnormalize_axis, abs_neg, abs_of_pos (by norm_num : (0 : ℝ) < 1 / 5)]
      norm_num [Prod.ext_iff]
    rw [hval, one_smul, sub_axis, limit_vec2, vlen_mk_axis]
    rw [if_neg (by rw [abs_of_nonpos (by norm_num)]; norm_num)]
    norm_num [Prod.ext_iff]
  rw [hcode, hspec]
  norm_num [Prod.ext_iff]

/-- C3 (amended): the seek force is `(target - position) - velocity` with no
`max_speed` rescaling and no `max_force` clamp; it is the zero vector exactly
when `target = position` or `velocity = target - position`. -/
theorem c3_seek_closed_form (position velocity target : Vec2) :
    get_seek_force position velocity target =
        (if target - position = 0 then 0 else (target - position) - velocity) ∧
      (get_seek_force position velocity target = 0 ↔
        target = position ∨ velocity = target - position) := by
  constructor
  · rfl
  · unfold get_seek_force
    by_cases h : target - position = 0
    · rw [if_pos h]
      constructor
      · intro _
        exact Or.inl (sub_eq_zero.1 h)
      · intro _
        rfl
    · rw [if_neg h]
      constructor
      · intro h0
        exact Or.inr (sub_eq_zero.1 h0).symm
      · rintro (h1 | h1)
        · exact absurd (sub_eq_zero.2 h1) h
        · rw [h1, sub_self]

/-- C3 counterexample: seeking `(2, 0)` from the origin at rest with
`max_speed = 5`, `max_force = 100`: the code returns `(2, 0)` but the spec
formula returns `(5, 0)`. -/
theorem c3_counterexample :
    get_seek_force ((0 : ℝ), (0 : ℝ)) ((0 : ℝ), (0 : ℝ)) ((2 : ℝ), (0 : ℝ)) ≠
      spec_seek_force ((0 : ℝ), (0 : ℝ)) ((0 : ℝ), (0 : ℝ)) ((2 : ℝ), (0 : ℝ)) 5 100 := by
  have hcode : get_seek_force ((0 : ℝ), (0 : ℝ)) ((0 : ℝ), (0 : ℝ)) ((2 : ℝ), (0 : ℝ)) =
      ((2 : ℝ), (0 : ℝ)) := by
    unfold get_seek_force
    rw [sub_axis]
    rw [if_neg (by norm_num [Prod.ext_iff]), sub_axis]
    norm_num
  have hspec : spec_seek_force ((0 : ℝ), (0 : ℝ)) ((0 : ℝ), (0 : ℝ)) ((2 : ℝ), (0 : ℝ))
      5 100 = ((5 : ℝ), (0 : ℝ)) := by
    unfold spec_seek_force
    rw [if_neg (by norm_num [Prod.ext_iff]), sub_axis]
    norm_num [vnormalize_axis, limit_vec2, smul_axis, sub_axis, vlen_mk_axis,
      Prod.ext_iff]
  rw [hcode, hspec]
  norm_num [Prod.ext_iff]

/-- C4 (amended): the collision force of `update` is the separation formula
evaluated at radius `boid_radius` (not `2 * boid_radius`); in particular it
vanishes whenever every other agent sits at distance 0 or at distance at
least `boid_radius`. -/
theorem c4_collision_radius (s : BoidSettings) (boids : List Vec2) (p v : Vec2) :
    collision_force_of s boids p v =
        get_separation_force p v boids s.boid_radius s.max_speed s.max_force ∧
      ((∀ q ∈ boids, vdist p q = 0 ∨ s.boid_radius ≤ vdist p q) →
        collision_force_of s boids p v = 0) := by
  refine ⟨rfl, fun h => ?_⟩
  unfold collision_force_of
  exact get_separation_force_of_far p v boids s.boid_radius s.max_speed s.max_force h

/-- C4 witness: with the default settings a single other agent 20 units away
produces a zero collision force. -/
theorem c4_collision_radius_witness :
    (∀ q ∈ [(((20 : ℝ), (0 : ℝ)) : Vec2)],
        vdist ((0 : ℝ), (0 : ℝ)) q = 0 ∨
          defaultSettings.boid_radius ≤ vdist ((0 : ℝ), (0 : ℝ)) q) ∧
      collision_force_of defaultSettings [((20 : ℝ), (0 : ℝ))]
        ((0 : ℝ), (0 : ℝ)) ((0 : ℝ), (0 : ℝ)) = 0 := by
  have hq : ∀ q ∈ [(((20 : ℝ), (0 : ℝ)) : Vec2)],
      vdist ((0 : ℝ), (0 : ℝ)) q = 0 ∨
        defaultSettings.boid_radius ≤ vdist ((0 : ℝ), (0 : ℝ)) q := by
    intro q hmem
    rw [List.mem_singleton] at hmem
    rw [hmem]
    right
    rw [vdist_axis]
    norm_num [defaultSettings]
  exact ⟨hq, (c4_collision_radius defaultSettings [((20 : ℝ), (0 : ℝ))]
    ((0 : ℝ), (0 : ℝ)) ((0 : ℝ), (0 : ℝ))).2 hq⟩

/-- C4 counterexample: with `boid_radius = 3` and one other agent at distance
5, the collision force of `update` is zero, while the separation formula at
radius `2 * boid_radius = 6` is not. -/
theorem c4_counterexample :
    collision_force_of smallRadiusSettings
        [((0 : ℝ), (0 : ℝ)), ((5 : ℝ), (0 : ℝ))] ((0 : ℝ), (0 : ℝ)) ((0 : ℝ), (0 : ℝ)) ≠
      get_separation_force ((0 : ℝ), (0 : ℝ)) ((0 : ℝ), (0 : ℝ))
        [((0 : ℝ), (0 : ℝ)), ((5 : ℝ), (0 : ℝ))] (2 * smallRadiusSettings.boid_radius)
        smallRadiusSettings.max_speed smallRadiusSettings.max_force := by
  have hb : smallRadiusSettings.boid_radius = (3 : ℝ) := rfl
  have hcode : collision_force_of smallRadiusSettings
      [((0 : ℝ), (0 : ℝ)), ((5 : ℝ), (0 : ℝ))] ((0 : ℝ), (0 : ℝ)) ((0 : ℝ), (0 : ℝ)) = 0 := by
    unfold collision_force_of
    rw [get_separation_force_eq, hb,
      if_pos (sep_neighbors_pair_far 3 (by norm_num))]
  have hsix : 2 * smallRadiusSettings.boid_radius = (6 : ℝ) := by
    rw [hb]
    norm_num
  have hsep : get_separation_force ((0 : ℝ), (0 : ℝ)) ((0 : ℝ), (0 : ℝ))
      [((0 : ℝ), (0 : ℝ)), ((5 : ℝ), (0 : ℝ))] (2 * smallRadiusSettings.boid_radius)
      smallRadiusSettings.max_speed smallRadiusSettings.max_force = (-(1 / 5 : ℝ), 0) := by
    rw [hsix, get_separation_force_eq, sep_neighbors_pair_near 6 (by norm_num),
      sep_avg_pair 6 (by norm_num)]
    norm_num [Prod.ext_iff]
  rw [hcode, hsep]
  norm_num [Prod.ext_iff]

/-- A two-agent state used by witnesses. -/
def twoAgentState : List (Vec2 × Vec2) :=
  [(((0 : ℝ), (0 : ℝ)), ((0 : ℝ), (0 : ℝ))), (((5 : ℝ), (0 : ℝ)), ((0 : ℝ), (0 : ℝ)))]

/-- C5: on a fire, per axis, a position below the boundary minimum forces
that axis's pre-clamp acceleration component to `+max_force` and a position
above the boundary maximum forces it to `-max_force`, replacing the weighted
sum; in particular a lone agent at `x = boundary_min_x - 1` with no other
forces gets pre-clamp acceleration exactly `(max_force, 0)`. -/
theorem c5_boundary_override (s : BoidSettings) (target : Option Vec2)
    (boids : List Vec2) (boids2 : List (Vec2 × Vec2)) (p v : Vec2) :
    (p.1 < s.boundary_min_x → s.boundary_min_x ≤ s.boundary_max_x →
      (pre_clamp_acceleration s target boids boids2 p v).1 = s.max_force) ∧
    (p.1 > s.boundary_max_x →
      (pre_clamp_acceleration s target boids boids2 p v).1 = -s.max_force) ∧
    (p.2 < s.boundary_min_y → s.boundary_min_y ≤ s.boundary_max_y →
      (pre_clamp_acceleration s target boids boids2 p v).2 = s.max_force) ∧
    (p.2 > s.boundary_max_y →
      (pre_clamp_acceleration s target boids boids2 p v).2 = -s.max_force) ∧
    (p.1 = s.boundary_min_x - 1 → s.boundary_min_x ≤ s.boundary_max_x →
      ¬ p.2 < s.boundary_min_y → ¬ p.2 > s.boundary_max_y →
      pre_clamp_acceleration s none [p] [(p, v)] p v = (s.max_force, 0)) := by
  refine ⟨fun h1 hmm => ?_, pre_clamp_fst_of_high s target boids boids2 p v,
    fun h3 hmm => ?_, pre_clamp_snd_of_high s target boids boids2 p v,
    fun hx hmm h3 h4 => ?_⟩
  · exact pre_clamp_fst_of_low s target boids boids2 p v h1
      (not_lt.2 (le_of_lt (lt_of_lt_of_le h1 hmm)))
  · exact pre_clamp_snd_of_low s target boids boids2 p v h3
      (not_lt.2 (le_of_lt (lt_of_lt_of_le h3 hmm)))
  · have h1 : p.1 < s.boundary_min_x := by
      rw [hx]
      linarith
    have h2 : ¬ p.1 > s.boundary_max_x := by
      rw [hx]
      push_neg
      linarith
    exact pre_clamp_single_agent_low_x s p v h1 h2 h3 h4

/-- C5 witness: with the default settings an agent at `x = -601` (one unit
below the boundary minimum) gets pre-clamp acceleration component
`+max_force` on the x axis. -/
theorem c5_boundary_override_witness :
    ((((-601 : ℝ), (0 : ℝ)) : Vec2).1 < defaultSettings.boundary_min_x ∧
        defaultSettings.boundary_min_x ≤ defaultSettings.boundary_max_x) ∧
      (pre_clamp_acceleration defaultSettings none [] [] ((-601 : ℝ), (0 : ℝ)) 0).1 =
        defaultSettings.max_force :=
  ⟨⟨by norm_num [defaultSettings], by norm_num [defaultSettings]⟩,
    (c5_boundary_override defaultSettings none [] [] ((-601 : ℝ), (0 : ℝ)) 0).1
      (by norm_num [defaultSettings]) (by norm_num [defaultSettings])⟩

/-- C6 (amended): `find_neighbors` returns exactly the entries of the
snapshot with a different entity id whose distance is strictly below the
radius, tagged with that distance; coincident agents (distance 0) with a
different id are included. -/
theorem c6_find_neighbors_mem (e0 : ℕ) (p0 : Vec2) (boids : List (ℕ × Vec2))
    (radius : ℝ) (e : ℕ) (p : Vec2) (d : ℝ) :
    (e, p, d) ∈ find_neighbors (e0, p0) boids radius ↔
      ((e, p) ∈ boids ∧ e ≠ e0 ∧ d = vdist p0 p ∧ d < radius) := by
  unfold find_neighbors
  rw [List.mem_filterMap]
  constructor
  · rintro ⟨o, ho, hsome⟩
    by_cases hc : (e0, p0).1 ≠ o.1 ∧ vdist (e0, p0).2 o.2 < radius
    · rw [if_pos hc] at hsome
      simp only [Option.some.injEq, Prod.mk.injEq] at hsome
      obtain ⟨he, hp, hd⟩ := hsome
      have ho2 : o = (e, p) := by
        rw [Prod.ext_iff]
        exact ⟨he, hp⟩
      subst ho2
      refine ⟨ho, Ne.symm hc.1, hd.symm, ?_⟩
      rw [← hd]
      exact hc.2
    · rw [if_neg hc] at hsome
      simp at hsome
  · rintro ⟨hmem, hne, hd, hrad⟩
    refine ⟨(e, p), hmem, ?_⟩
    rw [if_pos ⟨Ne.symm hne, hd ▸ hrad⟩, ← hd]

/-- C6 counterexample: two distinct entities at the same position: the
query returns the other entity at distance 0, which is not strictly
positive. -/
theorem c6_counterexample :
    ((1 : ℕ), (((0 : ℝ), (0 : ℝ)) : Vec2), (0 : ℝ)) ∈
        find_neighbors (0, ((0 : ℝ), (0 : ℝ)))
          [(0, ((0 : ℝ), (0 : ℝ))), (1, ((0 : ℝ), (0 : ℝ)))] 5 ∧
      ¬ (0 : ℝ) < 0 := by
  constructor
  · have hd : vdist (0 : Vec2) (0 : Vec2) = 0 := vdist_self _
    norm_num [find_neighbors, hd]
  · exact lt_irrefl 0

/-- C7: the fire computes every agent's new velocity from the fire-time
snapshot, so any two complete duplicate-free iteration orders over the
agents produce identical post-fire states. -/
theorem c7_order_independence (s : BoidSettings) (target : Option Vec2)
    (state : List (Vec2 × Vec2)) (ord1 ord2 : List ℕ)
    (h1 : ord1.Nodup) (h2 : ord2.Nodup)
    (hc1 : ∀ i, i ∈ ord1 ↔ i < state.length)
    (hc2 : ∀ i, i ∈ ord2 ↔ i < state.length) :
    update_fire s target state ord1 = update_fire s target state ord2 := by
  rw [update_fire_eq_map s target state ord1 h1 hc1,
    update_fire_eq_map s target state ord2 h2 hc2]

/-- C7 witness: a two-agent state processed in the orders `[0, 1]` and
`[1, 0]` yields the same result. -/
theorem c7_order_independence_witness :
    (([0, 1] : List ℕ).Nodup ∧ ([1, 0] : List ℕ).Nodup ∧
        (∀ i, i ∈ ([0, 1] : List ℕ) ↔ i < twoAgentState.length) ∧
        (∀ i, i ∈ ([1, 0] : List ℕ) ↔ i < twoAgentState.length)) ∧
      update_fire defaultSettings none twoAgentState [0, 1] =
        update_fire defaultSettings none twoAgentState [1, 0] :=
  ⟨⟨by decide, by decide,
      by
        intro i
        simp [twoAgentState]
        omega,
      by
        intro i
        simp [twoAgentState]
        omega⟩,
    c7_order_independence defaultSettings none twoAgentState [0, 1] [1, 0]
      (by decide) (by decide)
      (by
        intro i
        simp [twoAgentState]
        omega)
      (by
        intro i
        simp [twoAgentState]
        omega)⟩

/-- C8: the fire loop never modifies any position, for every iteration
order; positions advance only in `apply_boid_velocity`, which adds
`velocity * (elapsed_seconds * velocity_time_scale)` to each position and
leaves velocities unchanged, where `elapsed_seconds` is the total time since
startup (`Time::elapsed_seconds`). -/
theorem c8_position_integration (s : BoidSettings) (target : Option Vec2)
    (state : List (Vec2 × Vec2)) (ord : List ℕ) (elapsed_seconds : ℝ) :
    (update_fire s target state ord).map Prod.fst = state.map Prod.fst ∧
      ∀ j : ℕ, (apply_boid_velocity s elapsed_seconds state)[j]? =
        (state[j]?).map fun pv : Vec2 × Vec2 =>
          (pv.1 + (elapsed_seconds * s.velocity_time_scale) • pv.2, pv.2) := by
  refine ⟨update_fire_map_fst s target state ord, fun j => ?_⟩
  unfold apply_boid_velocity
  rw [List.getElem?_map]

/-- C9: every spawner run places agents pairwise at least `2 * boid_radius`
apart, draws each placed position from one of its slot's ten candidates, and
never places more than `spawn_count` agents. -/
theorem c9_spawner_invariant (candidates : ℕ → ℕ → Vec2) (spawn_count : ℕ)
    (boid_radius : ℝ) :
    (setup_positions candidates spawn_count boid_radius).Pairwise
        (fun a b => 2 * boid_radius ≤ vdist a b) ∧
      (setup_positions candidates spawn_count boid_radius).length ≤ spawn_count ∧
      ∀ c ∈ setup_positions candidates spawn_count boid_radius,
        ∃ slot < spawn_count, ∃ k < 10, c = candidates slot k := by
  rcases setup_positions_go candidates boid_radius (List.range spawn_count) []
    List.Pairwise.nil with ⟨h1, h2, h3⟩
  unfold setup_positions
  refine ⟨?_, ?_, ?_⟩
  · refine h1.imp fun hab => ?_
    rw [mul_comm]
    exact hab
  · simpa using h2
  · intro c hc
    rcases h3 c hc with hfalse | ⟨slot, hslot, k, hk, hck⟩
    · exact absurd hfalse (List.not_mem_nil c)
    · exact ⟨slot, List.mem_range.1 hslot, k, hk, hck⟩

/-- C10: the cohesion force is zero when no other agent is strictly within
the radius at strictly positive distance; with neighbors present it seeks
the averaged neighbor position if and only if that average is not exactly
the origin (the guard tests the average against `(0, 0)`, not against the
agent's own position), and returns zero when the average is the origin. -/
theorem c10_cohesion_degeneracy (position velocity : Vec2) (boids : List Vec2)
    (cd ms mf : ℝ) :
    get_cohesion_force position velocity boids cd ms mf =
      if coh_neighbors position cd boids = [] then 0
      else if coh_avg position cd boids = 0 then 0
      else get_seek_force position velocity (coh_avg position cd boids) :=
  get_cohesion_force_eq position velocity boids cd ms mf

end
